import Mathlib

set_option maxRecDepth 100000

/-!
Verification of the toribot polling/extraction/valuation pipeline.

Shallow embedding of the Python sources `src/toribot_base.py` and
`src/toribot.py` (the two files duplicate most classes; where they agree we
embed the shared code once, and where they diverge — the image extraction in
`ProductExtractor.extract_product_details` — both variants are embedded under
separate names).

Modelling conventions:
  * Python strings are Lean `String`s, handled mostly as `List Char`.
  * The specific regular expressions of the source are embedded as dedicated
    character-level scanners with Python `re` semantics (leftmost match,
    greedy / lazy quantifier behaviour for the concrete patterns involved,
    `re.IGNORECASE` as case-insensitive comparison, `re.findall` as repeated
    leftmost non-overlapping matching).
  * I/O (network, clock, file persistence) is passed in explicitly: fetch
    results come from an environment/oracle, timestamps are parameters.
  * Python `dict`s are association lists with insertion-order semantics
    (replace keeps the position, fresh keys append at the end).
  * CPython `set` iteration order is unspecified; `list(set(xs))` is embedded
    as `xs.dedup`, and only order-independent facts are proved about it.
-/

/-! ## Python string primitives -/

/-- ASCII whitespace recognised by Python's `str.split()` / `\s`
(the embedded pages contain no non-ASCII whitespace). -/
def pyIsWs (c : Char) : Bool :=
  c = ' ' || c = '\t' || c = '\n' || c = '\r' || c = '\x0b' || c = '\x0c'

/-- Case-insensitive character equality (`re.IGNORECASE`). -/
def ciEq (a b : Char) : Bool := a.toLower = b.toLower

/-- Case-insensitive "pat is a prefix of cs". -/
def ciPrefix : List Char → List Char → Bool
  | [], _ => true
  | _ :: _, [] => false
  | p :: ps, c :: cs => ciEq p c && ciPrefix ps cs

/-- Case-insensitive substring containment. -/
def ciSub (pat : List Char) : List Char → Bool
  | [] => ciPrefix pat []
  | cs@(_ :: rest) => ciPrefix pat cs || ciSub pat rest

/-- Case-sensitive substring containment: Python's `sub in s`. -/
def subIn (pat : List Char) : List Char → Bool
  | [] => pat.isPrefixOf []
  | cs@(_ :: rest) => pat.isPrefixOf cs || subIn pat rest

/-- Python `sub in s` on `String`s. -/
def pyIn (sub s : String) : Bool := subIn sub.data s.data

/-- Python `str.lower()`. -/
def pyLower (s : String) : String := ⟨s.data.map Char.toLower⟩

/-- Python `str.strip()` (ASCII whitespace). -/
def pyStrip (s : String) : String :=
  ⟨((s.data.dropWhile pyIsWs).reverse.dropWhile pyIsWs).reverse⟩

/-- Python `str.split()` with no argument: split on whitespace runs,
dropping empty pieces. -/
def pySplitWsAux : List Char → List Char → List (List Char)
  | acc, [] => if acc = [] then [] else [acc.reverse]
  | acc, c :: cs =>
    if pyIsWs c then
      if acc = [] then pySplitWsAux [] cs else acc.reverse :: pySplitWsAux [] cs
    else pySplitWsAux (c :: acc) cs

/-- Python `' '.join(text.split())`: collapse whitespace runs to single spaces. -/
def wsCollapse (s : String) : String :=
  ⟨(pySplitWsAux [] s.data).intersperse [' '] |>.flatten⟩

/-- Python `str(i)` for a Python `int` (decimal, minus sign for negatives). -/
def pyIntStr (n : Int) : String := toString n

/-- Maximal leading run of ASCII digits together with the rest. -/
def takeDigits (cs : List Char) : List Char × List Char :=
  (cs.takeWhile Char.isDigit, cs.dropWhile Char.isDigit)

/-- Python `int(s)` on a nonempty digit string. -/
def digitsToNat (cs : List Char) : Nat :=
  cs.foldl (fun a c => a * 10 + (c.toNat - 48)) 0

/-! ## Generic `re.search` / `re.findall` drivers

A matcher tries to match its pattern anchored at the current position and,
on success, returns the captured group together with the rest of the input
after the whole match. `reSearch` tries every start position left to right
(Python `re.search`); `reFindAll` collects the captures of successive
leftmost non-overlapping matches (Python `re.findall`).  All the matchers
below consume at least one character on success, so a fuel of
`length + 1` is enough for `reFindAll`. -/

def reSearch {α : Type} (m : List Char → Option (α × List Char)) :
    List Char → Option α
  | [] => (m []).map Prod.fst
  | cs@(_ :: rest) =>
    match m cs with
    | some (a, _) => some a
    | none => reSearch m rest

def reFindAllAux {α : Type} (m : List Char → Option (α × List Char)) :
    Nat → List Char → List α
  | 0, _ => []
  | _ + 1, [] =>
    match m [] with
    | some (a, _) => [a]
    | none => []
  | fuel + 1, cs@(_ :: rest) =>
    match m cs with
    | some (a, rest2) => a :: reFindAllAux m fuel rest2
    | none => reFindAllAux m fuel rest

def reFindAll {α : Type} (m : List Char → Option (α × List Char))
    (cs : List Char) : List α :=
  reFindAllAux m (cs.length + 1) cs

/-! ## ToriFetcher._fetch_with_retries  (toribot_base.py 250-267, toribot.py 287-304)

```python
for attempt in range(max_retries + 1):
    try:
        response = self.session.get(url, timeout=timeout)
        response.raise_for_status()
        return response
    except Exception as e:
        if attempt < max_retries:
            wait_time = (2 ** attempt) * 1  # Exponential backoff
            time.sleep(wait_time)
        else:
            return None
```

The network is an oracle mapping the attempt index to `some responseText`
(successful request) or `none` (any exception: timeout, HTTP error,
connection error).  The embedding additionally reports how many attempts
were issued and the total backoff slept, which the Python code performs
through `time.sleep`. -/

structure FetchOutcome where
  result : Option String
  attempts : Nat
  totalWait : Nat
deriving DecidableEq, Repr

/-- The retry loop; `remaining` is `max_retries - attempt`, so the branch
`remaining = 0` is Python's `attempt == max_retries` (no backoff, return
`None`). -/
def fetchAux (oracle : Nat → Option String) (attempt : Nat) :
    Nat → FetchOutcome
  | 0 =>
    match oracle attempt with
    | some r => ⟨some r, attempt + 1, 0⟩
    | none => ⟨none, attempt + 1, 0⟩
  | remaining + 1 =>
    match oracle attempt with
    | some r => ⟨some r, attempt + 1, 0⟩
    | none =>
      let o := fetchAux oracle (attempt + 1) remaining
      ⟨o.result, o.attempts, o.totalWait + 2 ^ attempt⟩

def fetchWithRetries (maxRetries : Nat) (oracle : Nat → Option String) :
    FetchOutcome :=
  fetchAux oracle 0 maxRetries

lemma fetchAux_succeeds (oracle : Nat → Option String) (r : String) :
    ∀ (k a remaining : Nat), k ≤ remaining →
      (∀ i, i < k → oracle (a + i) = none) →
      oracle (a + k) = some r →
      fetchAux oracle a remaining =
        ⟨some r, a + k + 1, (Finset.range k).sum (fun i => 2 ^ (a + i))⟩ := by
  intro k
  induction k with
  | zero =>
    intro a remaining _ _ hk
    simp only [Nat.add_zero] at hk
    cases remaining with
    | zero => simp [fetchAux, hk]
    | succ m => simp [fetchAux, hk]
  | succ k ih =>
    intro a remaining hle hfail hk
    cases remaining with
    | zero => omega
    | succ m =>
      have h0 : oracle a = none := by
        have := hfail 0 (Nat.succ_pos k)
        simpa using this
      have ihm := ih (a + 1) m (Nat.le_of_succ_le_succ hle)
        (fun i hi => by
          have := hfail (i + 1) (Nat.succ_lt_succ hi)
          simpa [Nat.add_assoc, Nat.add_comm 1 i] using this)
        (by simpa [Nat.add_assoc, Nat.add_comm 1 k] using hk)
      simp only [fetchAux, h0, ihm]
      have hsum : (Finset.range (k + 1)).sum (fun i => 2 ^ (a + i)) =
          (Finset.range k).sum (fun i => 2 ^ (a + 1 + i)) + 2 ^ a := by
        rw [Finset.sum_range_succ' (fun i => 2 ^ (a + i)) k]
        simp only [Nat.add_zero]
        congr 1
        refine Finset.sum_congr rfl (fun i _ => ?_)
        ring_nf
      simp only [FetchOutcome.mk.injEq]
      exact ⟨trivial, by omega, by rw [hsum]⟩

lemma fetchAux_all_fail (oracle : Nat → Option String) :
    ∀ (remaining a : Nat),
      (∀ i, i ≤ remaining → oracle (a + i) = none) →
      fetchAux oracle a remaining =
        ⟨none, a + remaining + 1, (Finset.range remaining).sum (fun i => 2 ^ (a + i))⟩ := by
  intro remaining
  induction remaining with
  | zero =>
    intro a hfail
    have := hfail 0 (Nat.le_refl 0)
    simp only [Nat.add_zero] at this
    simp [fetchAux, this]
  | succ m ih =>
    intro a hfail
    have h0 : oracle a = none := by
      have := hfail 0 (Nat.zero_le _)
      simpa using this
    have ihm := ih (a + 1) (fun i hi => by
      have := hfail (i + 1) (Nat.succ_le_succ hi)
      simpa [Nat.add_assoc, Nat.add_comm 1 i] using this)
    simp only [fetchAux, h0, ihm]
    have hsum : (Finset.range (m + 1)).sum (fun i => 2 ^ (a + i)) =
        (Finset.range m).sum (fun i => 2 ^ (a + 1 + i)) + 2 ^ a := by
      rw [Finset.sum_range_succ' (fun i => 2 ^ (a + i)) m]
      simp only [Nat.add_zero]
      congr 1
      refine Finset.sum_congr rfl (fun i _ => ?_)
      ring_nf
    simp only [FetchOutcome.mk.injEq]
    exact ⟨trivial, by omega, by rw [hsum]⟩

/-! ## Pattern matchers for the extractor regexes

Each matcher embeds one concrete regular expression of the source,
anchored at the current position, with the backtracking behaviour worked
out for that pattern (documented per matcher). -/

/-- Match a case-insensitive literal and drop it. -/
def ciDropLit (lit cs : List Char) : Option (List Char) :=
  if ciPrefix lit cs then some (cs.drop lit.length) else none

/-- Regex `\s+` followed by maximal whitespace absorption (the literal that
follows never starts with whitespace, so greedy `\s+` = maximal run). -/
def reqWs1 : List Char → Option (List Char)
  | c :: rest => if pyIsWs c then some (rest.dropWhile pyIsWs) else none
  | [] => none

/-- Regex `\s*`. -/
def skipWs (cs : List Char) : List Char := cs.dropWhile pyIsWs

/-- Regex `[^"]*"`: maximal run of non-quote characters, requiring the closing
quote; returns (content, rest after the closing quote). -/
def quotedRun (cs : List Char) : Option (List Char × List Char) :=
  let content := cs.takeWhile (fun c => c != '"')
  match cs.drop content.length with
  | '"' :: rest => some (content, rest)
  | _ => none

/-- Pattern `PRODUCT_ID_PATTERN = r'href=["\'][^"\']*?/recommerce/forsale/item/(\d+)'`
(toribot_base.py 38, toribot.py 75): the lazy `[^"\']*?` stops at the
earliest position where `/recommerce/forsale/item/` followed by at least
one digit matches, and may not cross a quote. -/
def scanToItem : List Char → Option (List Char × List Char)
  | [] => none
  | cs@(c :: rest) =>
    let after := cs.drop "/recommerce/forsale/item/".length
    if "/recommerce/forsale/item/".data.isPrefixOf cs &&
        !(after.takeWhile Char.isDigit).isEmpty then
      some (after.takeWhile Char.isDigit, after.dropWhile Char.isDigit)
    else if c == '"' || c == '\'' then none
    else scanToItem rest

def matchIdAt (cs : List Char) : Option (List Char × List Char) :=
  if "href=".data.isPrefixOf cs then
    match cs.drop 5 with
    | q :: cs2 => if q == '"' || q == '\'' then scanToItem cs2 else none
    | [] => none
  else none

/-- Pattern `r'<h1[^>]*>(.*?)</h1>'` with `re.DOTALL` (case-sensitive): `[^>]*>`
consumes through the first `>` after `<h1`, and the lazy `(.*?)` captures
up to the first following `</h1>`. -/
def upToLit (lit : List Char) : List Char → Option (List Char × List Char)
  | [] => if lit.isEmpty then some ([], []) else none
  | cs@(c :: rest) =>
    if lit.isPrefixOf cs then some ([], cs.drop lit.length)
    else
      match upToLit lit rest with
      | some (pre, after) => some (c :: pre, after)
      | none => none

def matchH1At (cs : List Char) : Option (List Char × List Char) :=
  if "<h1".data.isPrefixOf cs then
    let cs1 := cs.drop 3
    match cs1.dropWhile (fun c => c != '>') with
    | '>' :: cs2 => upToLit "</h1>".data cs2
    | _ => none
  else none

/-- Pattern `r'<meta\s+MID\s+content="([^"]*)"'` with `re.IGNORECASE`, where `MID`
is `property="og:description"` or `name="description"` (toribot_base.py
350-351). -/
def matchMetaAt (mid : List Char) (cs : List Char) :
    Option (List Char × List Char) :=
  (ciDropLit "<meta".data cs).bind fun cs1 =>
  (reqWs1 cs1).bind fun cs2 =>
  (ciDropLit mid cs2).bind fun cs3 =>
  (reqWs1 cs3).bind fun cs4 =>
  (ciDropLit "content=\"".data cs4).bind fun cs5 =>
  quotedRun cs5

/-- Pattern `r'"KEY"\s*:\s*"([^"]+)"'` with `re.IGNORECASE`: the capture is the
whole (nonempty) quoted value. -/
def matchKeyStrAt (key : List Char) (cs : List Char) :
    Option (List Char × List Char) :=
  (ciDropLit ('"' :: key ++ ['"']) cs).bind fun cs1 =>
  match skipWs cs1 with
  | ':' :: cs2 =>
    match skipWs cs2 with
    | '"' :: cs3 =>
      (quotedRun cs3).bind fun pr =>
        if pr.1.isEmpty then none else some pr
    | _ => none
  | _ => none

/-- Pattern `r'<span[^>]*WORD[^>]*>([^<]+)</span>'` with `re.IGNORECASE`: the two
`[^>]*` runs cover exactly the attribute region up to the first `>`, so the
pattern matches iff that region contains WORD; the capture is the maximal
nonempty run of non-`<` characters, which must be followed by `</span>`. -/
def matchSpanAt (word : List Char) (cs : List Char) :
    Option (List Char × List Char) :=
  (ciDropLit "<span".data cs).bind fun cs1 =>
  let run := cs1.takeWhile (fun c => c != '>')
  if ciSub word run then
    match cs1.drop run.length with
    | '>' :: cs2 =>
      let cap := cs2.takeWhile (fun c => c != '<')
      if cap.isEmpty then none
      else (ciDropLit "</span>".data (cs2.drop cap.length)).map fun rest =>
        (cap, rest)
    | _ => none
  else none

/-- Pattern `r'class="[^"]*WORD[^"]*"[^>]*>([^<]+)<'` with `re.IGNORECASE`. -/
def matchClassAt (word : List Char) (cs : List Char) :
    Option (List Char × List Char) :=
  (ciDropLit "class=\"".data cs).bind fun cs1 =>
  (quotedRun cs1).bind fun (attr, cs2) =>
  if ciSub word attr then
    let run := cs2.takeWhile (fun c => c != '>')
    match cs2.drop run.length with
    | '>' :: cs3 =>
      let cap := cs3.takeWhile (fun c => c != '<')
      if cap.isEmpty then none
      else
        match cs3.drop cap.length with
        | '<' :: rest => some (cap, rest)
        | _ => none
    | _ => none
  else none

/-- Greedy `[^}]*` before `"INNER"\s*:\s*"([^"]+)"`: prefer the rightmost
position (reachable without crossing `}`) where the inner key matches. -/
def scanBraceGreedy (inner : List Char) : List Char → Option (List Char × List Char)
  | [] => none
  | cs@(c :: rest) =>
    if c == '}' then matchKeyStrAt inner cs
    else
      match scanBraceGreedy inner rest with
      | some r => some r
      | none => matchKeyStrAt inner cs

/-- Pattern `r'"OUTER"[^}]*"INNER"\s*:\s*"([^"]+)"'` with `re.IGNORECASE`
(the `"address".."locality"`, `"seller".."name"`, `"advertiser".."name"`
patterns). -/
def matchBraceAt (outer inner : List Char) (cs : List Char) :
    Option (List Char × List Char) :=
  (ciDropLit ('"' :: outer ++ ['"']) cs).bind fun cs1 =>
  scanBraceGreedy inner cs1

/-- Allowed raster extensions of the image regexes. -/
def imgExts : List (List Char) := ["jpg".data, "jpeg".data, "png".data, "webp".data]

/-- Regex `\.(?:jpg|jpeg|png|webp)` reachable after consuming more characters;
`needBefore = true` additionally requires at least one character before the
dot (the `[^"]+\.` form). -/
def dotExtScan : Bool → List Char → Bool
  | _, [] => false
  | needBefore, c :: rest =>
    (c == '.' && !needBefore && imgExts.any (fun e => ciPrefix e rest)) ||
    dotExtScan false rest

/-- Regex `TOK[^"]*\.(?:jpg|jpeg|png|webp)` somewhere in the run (case-insensitive). -/
def tokThenExt (tok : List Char) : List Char → Bool
  | [] => false
  | cs@(_ :: rest) =>
    (ciPrefix tok cs && dotExtScan false (cs.drop tok.length)) || tokThenExt tok rest

/-- Shape of `https://[^"]+\.(?:jpg|jpeg|png|webp)[^"]*` applied to a full
quoted value (the trailing `[^"]*` makes the capture the whole value). -/
def hasKeyImgShape (content : List Char) : Bool :=
  ciPrefix "https://".data content && dotExtScan true (content.drop 8)

/-- Shape of `https://[^"]*(?:images|img)[^"]*\.(?:jpg|jpeg|png|webp)[^"]*`.
Since every occurrence of `images` contains an occurrence of `img` at the
same position with a weaker follow-up constraint, the alternation is
equivalent to requiring some `img` occurrence followed by a dot-extension. -/
def hasGalleryShape (content : List Char) : Bool :=
  ciPrefix "https://".data content && tokThenExt "img".data (content.drop 8)

/-- Pattern `r'"KEY"\s*:\s*"(https://[^"]+\.(?:jpg|jpeg|png|webp)[^"]*)"'` with
`re.IGNORECASE` (toribot_base.py 403-405, 412). -/
def matchImgKeyAt (key : List Char) (cs : List Char) :
    Option (List Char × List Char) :=
  (ciDropLit ('"' :: key ++ ['"']) cs).bind fun cs1 =>
  match skipWs cs1 with
  | ':' :: cs2 =>
    match skipWs cs2 with
    | '"' :: cs3 =>
      (quotedRun cs3).bind fun pr =>
        if hasKeyImgShape pr.1 then some pr else none
    | _ => none
  | _ => none

/-- Pattern `r'ATTR="(https://[^"]*(?:images|img)[^"]*\.(?:jpg|jpeg|png|webp)[^"]*)"'`
with `re.IGNORECASE`, `ATTR` being `data-src` or `src`
(toribot_base.py 408-409). -/
def matchGalleryAt (attrLit : List Char) (cs : List Char) :
    Option (List Char × List Char) :=
  (ciDropLit attrLit cs).bind fun cs1 =>
  (quotedRun cs1).bind fun pr =>
    if hasGalleryShape pr.1 then some pr else none

/-! ## ProductExtractor._clean_text  (toribot_base.py 481-489, toribot.py 489-497)

```python
if not text:
    return None
text = re.sub(r'<[^>]+>', '', text)
text = unescape(text)
text = ' '.join(text.split())
return text.strip() or None
```
-/

/-- Python `re.sub(r'<[^>]+>', '', text)`: delete every `<`, one-or-more non-`>`,
`>` group; an unmatched `<` is kept.  Fuel-driven recursion (each step
consumes at least one character, so `length` fuel suffices). -/
def stripTagsAux : Nat → List Char → List Char
  | _, [] => []
  | 0, cs => cs
  | fuel + 1, c :: rest =>
    if c == '<' then
      let run := rest.takeWhile (fun x => x != '>')
      match rest.drop run.length with
      | '>' :: rest2 =>
        if run.isEmpty then c :: stripTagsAux fuel rest
        else stripTagsAux fuel rest2
      | _ => c :: stripTagsAux fuel rest
    else c :: stripTagsAux fuel rest

def stripTags (cs : List Char) : List Char := stripTagsAux cs.length cs

/-- Python `html.unescape`, modelled on the stock entities occurring on the target
pages (`&amp; &lt; &gt; &quot; &#39;`); no claim depends on the rest of the
stdlib entity table. -/
def unescapeAux : Nat → List Char → List Char
  | _, [] => []
  | 0, cs => cs
  | fuel + 1, c :: rest =>
    if c == '&' then
      if "amp;".data.isPrefixOf rest then '&' :: unescapeAux fuel (rest.drop 4)
      else if "lt;".data.isPrefixOf rest then '<' :: unescapeAux fuel (rest.drop 3)
      else if "gt;".data.isPrefixOf rest then '>' :: unescapeAux fuel (rest.drop 3)
      else if "quot;".data.isPrefixOf rest then '"' :: unescapeAux fuel (rest.drop 5)
      else if "#39;".data.isPrefixOf rest then '\'' :: unescapeAux fuel (rest.drop 4)
      else c :: unescapeAux fuel rest
    else c :: unescapeAux fuel rest

def unescapeBasic (cs : List Char) : List Char := unescapeAux cs.length cs

def cleanText (text : String) : Option String :=
  if text = "" then none
  else
    let t1 := stripTags text.data
    let t2 := unescapeBasic t1
    let t3 := pyStrip (wsCollapse ⟨t2⟩)
    if t3 = "" then none else some t3

/-! ## Item records and the valuation result -/

structure ValuationR where
  status : String
  text : Option String
  price_new : Option Nat
  price_current : Option Nat
  price_estimate : Option Nat
  model : Option String
  timestamp : String
  message : Option String
deriving DecidableEq, Repr

structure ItemRecord where
  id : String
  url : String
  title : Option String
  description : Option String
  location : Option String
  seller : Option String
  images : List String
  image_files : List String
  discovered_at : String
  updated_at : String
  errors : Option (List String)
  valuation : Option ValuationR
deriving DecidableEq, Repr

def itemUrl (item_id : String) : String :=
  "https://www.tori.fi/recommerce/forsale/item/" ++ item_id

/-! ## ProductExtractor.extract_product_ids  (toribot_base.py 325-331, toribot.py 362-368) -/

def findIds (cs : List Char) : List String :=
  (reFindAll matchIdAt cs).map (fun ds => String.mk ds)

/-- Python `if not html: return []` then
`list(set(re.findall(PRODUCT_ID_PATTERN, html)))`. -/
def extract_product_ids (html : String) : List String :=
  if html = "" then [] else (findIds html.data).dedup

/-! ## Field extraction pipelines -/

def firstSomeList {α : Type} : List (Option α) → Option α
  | [] => none
  | some a :: _ => some a
  | none :: rest => firstSomeList rest

/-- Title: `re.search(r'<h1[^>]*>(.*?)</h1>', html, re.DOTALL)`. -/
def searchTitle (cs : List Char) : Option (List Char) :=
  reSearch matchH1At cs

/-- Description pattern list, first pattern that *matches* wins
(the result is then cleaned, which may still yield None). -/
def searchDescription (cs : List Char) : Option (List Char) :=
  firstSomeList
    [ reSearch (matchMetaAt "property=\"og:description\"".data) cs,
      reSearch (matchMetaAt "name=\"description\"".data) cs ]

/-- Location pattern list (toribot_base.py 363-368). -/
def searchLocation (cs : List Char) : Option (List Char) :=
  firstSomeList
    [ reSearch (matchKeyStrAt "location".data) cs,
      reSearch (matchSpanAt "location".data) cs,
      reSearch (matchClassAt "location".data) cs,
      reSearch (matchBraceAt "address".data "locality".data) cs ]

/-- Seller pattern list (toribot_base.py 380-386). -/
def searchSeller (cs : List Char) : Option (List Char) :=
  firstSomeList
    [ reSearch (matchBraceAt "seller".data "name".data) cs,
      reSearch (matchKeyStrAt "sellerName".data) cs,
      reSearch (matchSpanAt "seller".data) cs,
      reSearch (matchClassAt "seller".data) cs,
      reSearch (matchBraceAt "advertiser".data "name".data) cs ]

/-! ## Image extraction, toribot_base.py variant (lines 399-448) -/

/-- The six image patterns scanned in order (toribot_base.py 401-413). -/
def collectBaseImages (cs : List Char) : List (List Char) :=
  reFindAll (matchImgKeyAt "mainImage".data) cs ++
  reFindAll (matchImgKeyAt "imageUrl".data) cs ++
  reFindAll (matchImgKeyAt "productImage".data) cs ++
  reFindAll (matchGalleryAt "data-src=\"".data) cs ++
  reFindAll (matchGalleryAt "src=\"".data) cs ++
  reFindAll (matchImgKeyAt "image".data) cs

/-- Denylist of ad/UI substrings (toribot_base.py 416-419). -/
def adTerms : List (List Char) :=
  [ "banner".data, "advertisement".data, "promo".data, "logo".data,
    "icon".data, "avatar".data, "thumbnail".data, "watermark".data,
    "overlay".data ]

/-- Python `re.search(r'\.(jpg|jpeg|png|webp)(\?|$)', img_url, re.IGNORECASE)`. -/
def extEndOk : List Char → Bool
  | [] => false
  | c :: rest =>
    (c == '.' && imgExts.any (fun e =>
      ciPrefix e rest &&
        (match rest.drop e.length with
         | [] => true
         | '?' :: _ => true
         | _ => false))) ||
    extEndOk rest

/-- The validation condition of toribot_base.py 427-434. -/
def validImage (u : List Char) : Bool :=
  !u.isEmpty &&
  "https://".data.isPrefixOf u &&
  (subIn "tori.fi".data u || subIn "tor.se".data u || subIn "images".data u) &&
  !(adTerms.any (fun t => subIn t (u.map Char.toLower))) &&
  extEndOk u

/-- Dedup-preserving-order loop with the cap of 5 (toribot_base.py 439-445):
`if img not in seen and len(unique_images) < 5`. -/
def uniqueCap5 (seen unique : List (List Char)) :
    List (List Char) → List (List Char)
  | [] => unique
  | img :: rest =>
    if !(seen.contains img) && unique.length < 5 then
      uniqueCap5 (img :: seen) (unique ++ [img]) rest
    else uniqueCap5 seen unique rest

def baseImages (cs : List Char) : List (List Char) :=
  uniqueCap5 [] [] ((collectBaseImages cs).filter validImage)

/-! ## ProductExtractor.extract_product_details, toribot_base.py variant
(lines 333-479).  `html` is an `Option String`: `none` models passing
Python `None`, on which the first `re.search` inside the `try` block raises
`TypeError`, taking the `except` path; on a genuine string none of the
operations in the body can raise, so the body completes. -/

/-- Message of the `TypeError` raised by `re.search` on a `None` argument
(the text interpolated by `f"Exception during extraction: {str(e)}"`). -/
def reNoneTypeMsg : String := "expected string or bytes-like object"

def extract_product_details (html : Option String) (item_id : String)
    (now : String) : ItemRecord :=
  match html with
  | none =>
    { id := item_id
      url := itemUrl item_id
      title := none
      description := none
      location := none
      seller := none
      images := []
      image_files := []
      discovered_at := now
      updated_at := now
      errors := some ["Exception during extraction: " ++ reNoneTypeMsg]
      valuation := none }
  | some h =>
    let cs := h.data
    let titleM := searchTitle cs
    let title := titleM.bind (fun cap => cleanText ⟨cap⟩)
    let description := (searchDescription cs).bind (fun cap => cleanText ⟨cap⟩)
    let location := (searchLocation cs).bind (fun cap => cleanText ⟨cap⟩)
    let seller := (searchSeller cs).bind (fun cap => cleanText ⟨cap⟩)
    let images := (baseImages cs).map (fun u => String.mk u)
    let errs : List String :=
      (if titleM.isNone then ["Failed to extract title"] else []) ++
      (if description.isNone then ["Failed to extract description"] else []) ++
      (if location.isNone then ["Failed to extract location"] else []) ++
      (if seller.isNone then
        (if pyIn "logged" (pyLower h) || pyIn "profile" (pyLower h) then
          ["Seller info available but extraction failed (logged in user)"]
        else ["Seller info not available (login required)"])
       else []) ++
      (if images.isEmpty then ["No images found"] else [])
    { id := item_id
      url := itemUrl item_id
      title := title
      description := description
      location := location
      seller := seller
      images := images
      image_files := []
      discovered_at := now
      updated_at := now
      errors := if errs.isEmpty then none else some errs
      valuation := none }

/-! ## ProductExtractor.extract_product_details, toribot.py variant
(lines 371-486).  Identical to the base variant except for the image
section (toribot.py 435-455):

```python
image_patterns = [
    r'"image"\s*:\s*"(https://[^"]+)"',
    r'"imageUrl"\s*:\s*"(https://[^"]+)"',
    r'src="(https://[^"]*tori[^"]*\.(jpg|jpeg|png|webp)[^"]*)"|src="(https://[^"]*image[^"]*\.(jpg|jpeg|png|webp)[^"]*)"'
]
for pattern in image_patterns:
    img_matches = re.findall(pattern, html, re.IGNORECASE)
    for match_groups in img_matches:
        img_url = match_groups[0] if isinstance(match_groups, tuple) else match_groups
        if img_url and img_url.startswith('https://'):
            images.append(img_url)
images = list(set(images))[:5]
```

For the third pattern `re.findall` returns 4-tuples of groups and the code
reads index 0, which is the capture of the *first* alternative — an empty
string (skipped by `if img_url`) whenever only the second alternative
matched.  No denylist / extension / trusted-domain validation is applied. -/

/-- Pattern `"KEY"\s*:\s*"(https://[^"]+)"` with `re.IGNORECASE`. -/
def matchImgKeyLooseAt (key : List Char) (cs : List Char) :
    Option (List Char × List Char) :=
  (ciDropLit ('"' :: key ++ ['"']) cs).bind fun cs1 =>
  match skipWs cs1 with
  | ':' :: cs2 =>
    match skipWs cs2 with
    | '"' :: cs3 =>
      (quotedRun cs3).bind fun pr =>
        if ciPrefix "https://".data pr.1 && decide (8 < pr.1.length) then
          some pr
        else none
    | _ => none
  | _ => none

/-- The alternation pattern of toribot.py: `some content` for the first
alternative (`tori`), `none` for a match of the second alternative only
(`image`), whose group 0 is the empty string. -/
def matchSrcAltAt (cs : List Char) :
    Option (Option (List Char) × List Char) :=
  (ciDropLit "src=\"".data cs).bind fun cs1 =>
  (quotedRun cs1).bind fun (content, rest) =>
    if ciPrefix "https://".data content &&
        tokThenExt "tori".data (content.drop 8) then
      some (some content, rest)
    else if ciPrefix "https://".data content &&
        tokThenExt "image".data (content.drop 8) then
      some (none, rest)
    else none

def toriImagesRaw (cs : List Char) : List (List Char) :=
  ((reFindAll (matchImgKeyLooseAt "image".data) cs ++
    reFindAll (matchImgKeyLooseAt "imageUrl".data) cs ++
    (reFindAll matchSrcAltAt cs).filterMap id).filter
      (fun u => !u.isEmpty && "https://".data.isPrefixOf u))

/-- Python `list(set(images))[:5]` (set order unspecified; embedded as `dedup`). -/
def toriImages (cs : List Char) : List (List Char) :=
  (toriImagesRaw cs).dedup.take 5

def toribot_extract_product_details (html : Option String) (item_id : String)
    (now : String) : ItemRecord :=
  match html with
  | none =>
    { id := item_id
      url := itemUrl item_id
      title := none
      description := none
      location := none
      seller := none
      images := []
      image_files := []
      discovered_at := now
      updated_at := now
      errors := some ["Exception during extraction: " ++ reNoneTypeMsg]
      valuation := none }
  | some h =>
    let cs := h.data
    let titleM := searchTitle cs
    let title := titleM.bind (fun cap => cleanText ⟨cap⟩)
    let description := (searchDescription cs).bind (fun cap => cleanText ⟨cap⟩)
    let location := (searchLocation cs).bind (fun cap => cleanText ⟨cap⟩)
    let seller := (searchSeller cs).bind (fun cap => cleanText ⟨cap⟩)
    let images := (toriImages cs).map (fun u => String.mk u)
    let errs : List String :=
      (if titleM.isNone then ["Failed to extract title"] else []) ++
      (if description.isNone then ["Failed to extract description"] else []) ++
      (if location.isNone then ["Failed to extract location"] else []) ++
      (if seller.isNone then
        (if pyIn "logged" (pyLower h) || pyIn "profile" (pyLower h) then
          ["Seller info available but extraction failed (logged in user)"]
        else ["Seller info not available (login required)"])
       else []) ++
      (if images.isEmpty then ["No images found"] else [])
    { id := item_id
      url := itemUrl item_id
      title := title
      description := description
      location := location
      seller := seller
      images := images
      image_files := []
      discovered_at := now
      updated_at := now
      errors := if errs.isEmpty then none else some errs
      valuation := none }

example :
    extract_product_ids
      "<a href=\"/recommerce/forsale/item/111\">a</a> <a href='x/recommerce/forsale/item/222'>b</a> <a href=\"/recommerce/forsale/item/111\">c</a>"
      = ["222", "111"] := by decide

example :
    (extract_product_details
      (some "<h1>Hieno  sohva</h1><meta name=\"description\" content=\"Kunto ok\">")
      "42" "t0").title = some "Hieno sohva" := by decide

example :
    (extract_product_details
      (some "x\"mainImage\": \"https://images.tori.fi/a.jpg\" y")
      "42" "t0").images = ["https://images.tori.fi/a.jpg"] := by decide

example :
    (toribot_extract_product_details
      (some "\x7b\"image\":\"https://x/banner\"\x7d") "9" "t0").images
      = ["https://x/banner"] := by decide

/-! ## ProductDatabase  (toribot_base.py 120-189, toribot.py 156-226)

The `items` mapping of the JSON document, as a Python dict: association
list with insertion-order semantics.  Keys passed by callers may be Python
ints or strs; every operation converts with `str(item_id)`. -/

inductive PyKey where
  | int (n : Int)
  | str (s : String)
deriving DecidableEq, Repr

/-- Python `str(item_id)`. -/
def pyKeyStr : PyKey → String
  | .int n => pyIntStr n
  | .str s => s

abbrev Store := List (String × ItemRecord)

/-- Python dict assignment: replace in place, or append a fresh key. -/
def dictSet {α : Type} : List (String × α) → String → α → List (String × α)
  | [], k, v => [(k, v)]
  | (k2, v2) :: rest, k, v =>
    if k2 = k then (k, v) :: rest else (k2, v2) :: dictSet rest k v

def dictKeys {α : Type} (d : List (String × α)) : List String :=
  d.map Prod.fst

/-- Method `item_exists`: `str(item_id) in self.data["items"]`. -/
def item_exists (db : Store) (item_id : PyKey) : Bool :=
  (db.lookup (pyKeyStr item_id)).isSome

/-- Method `add_item`: `self.data["items"][str(item_id)] = item_data` (the
subsequent `_save_database` only persists; it does not change the map). -/
def add_item (db : Store) (item_id : PyKey) (item_data : ItemRecord) : Store :=
  dictSet db (pyKeyStr item_id) item_data

/-- Method `get_item`: `self.data["items"].get(str(item_id))`. -/
def get_item (db : Store) (item_id : PyKey) : Option ItemRecord :=
  db.lookup (pyKeyStr item_id)

/-- Method `get_items_needing_valuation` (toribot_base.py 182-189):
`if not item.get("valuation") or item.get("valuation", {}).get("status") == "pending"`.
A valuation dict produced by the code is never empty, so the falsiness test
on `item.get("valuation")` is `valuation is None` in the model. -/
def get_items_needing_valuation (db : Store) : List (String × ItemRecord) :=
  db.filter (fun kv =>
    kv.2.valuation.isNone ||
    (match kv.2.valuation with
     | some v => v.status == "pending"
     | none => false))

/-! ## SettingsManager  (toribot_base.py 41-117, toribot.py 77-154)

`get_settings` returns `self.settings.copy()` — a SHALLOW copy: nested
dicts are shared by reference between the snapshot and the live settings.
To reason about this aliasing the settings store is embedded with an
explicit heap of nested-dict objects.  The settings document is two-level
(top-level scalars plus nested dicts of scalars), which matches the
defaults schema of the source. -/

inductive PyScalar where
  | int (n : Int)
  | bool (b : Bool)
  | str (s : String)
deriving DecidableEq, Repr

/-- A top-level settings value: a scalar, or a reference to a nested dict
object on the heap. -/
inductive SettVal where
  | scalar (v : PyScalar)
  | ref (addr : Nat)
deriving DecidableEq, Repr

abbrev NestedDict := List (String × PyScalar)

/-- The manager's state: the heap of nested dict objects and the top-level
settings dict (whose dict-valued entries are heap references). -/
structure SMState where
  nested : List NestedDict
  settings : List (String × SettVal)
deriving DecidableEq, Repr

/-- An argument value for `update_settings`: a scalar or a nested dict
literal. -/
inductive NewVal where
  | scalar (v : PyScalar)
  | dict (d : NestedDict)
deriving DecidableEq, Repr

/-- Method `get_settings` (toribot_base.py 86-89): `self.settings.copy()` — a new
top-level dict with the same entries; nested dict references are shared. -/
def get_settings (st : SMState) : List (String × SettVal) :=
  st.settings

/-- Python `isinstance(val, (int, float))` — Python `bool` is a subclass of `int`. -/
def pyIsNum : NewVal → Bool
  | .scalar (.int _) => true
  | .scalar (.bool _) => true
  | _ => false

def pyNumVal : NewVal → Int
  | .scalar (.int n) => n
  | .scalar (.bool b) => if b then 1 else 0
  | _ => 0

/-- The validation prologue of `update_settings` (toribot_base.py 98-107);
`some msg` is a raised `ValueError`, which happens before any mutation. -/
def validateSettings (new : List (String × NewVal)) : Option String :=
  match new.lookup "poll_interval_seconds" with
  | some v =>
    if !pyIsNum v || pyNumVal v < 10 then
      some "poll_interval_seconds must be >= 10"
    else
      match new.lookup "request_timeout_seconds" with
      | some w =>
        if !pyIsNum w || pyNumVal w < 1 then
          some "request_timeout_seconds must be >= 1"
        else none
      | none => none
  | none =>
    match new.lookup "request_timeout_seconds" with
    | some w =>
      if !pyIsNum w || pyNumVal w < 1 then
        some "request_timeout_seconds must be >= 1"
      else none
    | none => none

/-- Python `dict.update` on a nested dict object. -/
def dictUpdate (d upd : NestedDict) : NestedDict :=
  upd.foldl (fun acc kv => dictSet acc kv.1 kv.2) d

/-- The mutation loop of `update_settings` (toribot_base.py 110-114):
```python
for key in new_settings:
    if isinstance(new_settings[key], dict) and key in self.settings:
        self.settings[key].update(new_settings[key])
    else:
        self.settings[key] = new_settings[key]
```
`settings[key].update(...)` mutates the nested dict object IN PLACE on the
heap when `settings[key]` is a reference; if `settings[key]` is a scalar it
raises `AttributeError` (reported as `some msg`, leaving the partial
state). A dict value under a fresh key allocates a new heap object. -/
def updateLoop (st : SMState) : List (String × NewVal) → SMState × Option String
  | [] => (st, none)
  | (k, v) :: rest =>
    match v with
    | .scalar sc =>
      updateLoop { st with settings := dictSet st.settings k (.scalar sc) } rest
    | .dict d =>
      match st.settings.lookup k with
      | some (.ref i) =>
        updateLoop
          { st with nested := st.nested.set i (dictUpdate (st.nested.getD i []) d) }
          rest
      | some (.scalar _) =>
        (st, some "AttributeError: update on a non-dict settings value")
      | none =>
        updateLoop
          { nested := st.nested ++ [d]
            settings := dictSet st.settings k (.ref st.nested.length) }
          rest

/-- Method `update_settings` (toribot_base.py 91-117): validate, then mutate, then
persist (persistence does not change the in-memory state). -/
def update_settings (st : SMState) (new : List (String × NewVal)) :
    SMState × Option String :=
  match validateSettings new with
  | some msg => (st, some msg)
  | none => updateLoop st new

/-- Reading a top-level value through a snapshot returned by
`get_settings` (the snapshot's own entries). -/
def snapTop (snap : List (String × SettVal)) (k : String) : Option SettVal :=
  snap.lookup k

/-- Reading a nested value through a snapshot: dereference the shared
nested-dict object in the CURRENT state's heap. -/
def snapNested (snap : List (String × SettVal)) (st : SMState)
    (k sub : String) : Option PyScalar :=
  match snap.lookup k with
  | some (.ref i) => (st.nested.getD i []).lookup sub
  | _ => none

/-! ## OpenAIValuator.valuate_item  (toribot_base.py 505-588, toribot.py 511-611)

The network call to the text-generation endpoint is external I/O; the
embedding covers the code path after a successful API call, taking the
response narrative as input and producing the valuation dict built at
toribot_base.py 541-580.  The `int()` calls cannot raise on a `\d+`
capture, so the inner `try/except ValueError` blocks are dead. -/

/-- Python `re.search(r'LABEL\s*(\d+)€?', text, re.IGNORECASE)` for the labels
`HINTA_UUTENA:`, `ARVO_NYT:`, `ARVO:` (the label literal includes the
colon; the optional `€` does not affect the capture). -/
def matchLabelNumAt (label : List Char) (cs : List Char) :
    Option (List Char × List Char) :=
  (ciDropLit label cs).bind fun cs1 =>
  let cs2 := skipWs cs1
  let ds := cs2.takeWhile Char.isDigit
  if ds.isEmpty then none else some (ds, cs2.dropWhile Char.isDigit)

def searchLabelNum (label : List Char) (cs : List Char) : Option Nat :=
  (reSearch (matchLabelNumAt label) cs).map digitsToNat

/-- The parsing-and-assembly tail of `valuate_item` applied to the API
response text (`response.choices[0].message.content.strip()` already
applied to `valuation_text` by the caller side of the model). -/
def valuate_item_parse (responseText : String) (modelName : String)
    (now : String) : ValuationR :=
  let valuation_text := pyStrip responseText
  let cs := valuation_text.data
  let price_new := searchLabelNum "HINTA_UUTENA:".data cs
  let price_current0 := searchLabelNum "ARVO_NYT:".data cs
  let price_current :=
    match price_current0 with
    | some v => some v
    | none => searchLabelNum "ARVO:".data cs
  { status := "completed"
    text := some valuation_text
    price_new := price_new
    price_current := price_current
    price_estimate := price_current
    model := some modelName
    timestamp := now
    message := none }

example :
    (valuate_item_parse "HINTA_UUTENA: 50€\nARVO_NYT: 20€" "m" "t").price_new
      = some 50 := by decide

example :
    (valuate_item_parse "ARVO: 15€" "m" "t").price_current = some 15 ∧
    (valuate_item_parse "ARVO: 15€" "m" "t").price_new = none := by decide

/-! ## ToriBot._poll_once  (toribot_base.py 685-727, toribot.py 688-730)

The network and clock are supplied by an environment: `listingHtml` is the
result of `fetch_listing_page` (`none`/empty on failure), `itemHtml` maps a
product id to the result of `fetch_item_page`, `downloadOk` tells whether
`download_image` succeeds for a URL.  The embedding is instrumented to also
log which detail pages were fetched and which ids were upserted. -/

structure PollEnv where
  listingHtml : Option String
  itemHtml : String → Option String
  downloadOk : String → Bool
  downloadEnabled : Bool
  maxImages : Nat
  now : String

structure PollResult where
  db : Store
  fetchedIds : List String
  upsertedIds : List String
deriving DecidableEq, Repr

/-- Python `ext = img_url.split('.')[-1].split('?')[0].lower()` with the fallback
to `'jpg'` (toribot_base.py 741-743). -/
def imgFileExt (url : String) : String :=
  let last := (url.split (fun c => c = '.')).getLastD ""
  let ext := pyLower ⟨last.data.takeWhile (fun c => c != '?')⟩
  if ["jpg", "jpeg", "png", "gif", "webp"].contains ext then ext else "jpg"

/-- The download loop of `_download_item_images` (toribot_base.py 737-753):
failures are skipped, successes append `f"{item_id}_{idx}.{ext}"`. -/
def downloadFiles (ok : String → Bool) (item_id : String) :
    Nat → List String → List String
  | _, [] => []
  | idx, url :: rest =>
    let filename := item_id ++ "_" ++ toString idx ++ "." ++ imgFileExt url
    if ok url then filename :: downloadFiles ok item_id (idx + 1) rest
    else downloadFiles ok item_id (idx + 1) rest

/-- Method `_download_item_images` (toribot_base.py 729-754). -/
def download_item_images (env : PollEnv) (item_data : ItemRecord) : ItemRecord :=
  { item_data with
      image_files :=
        downloadFiles env.downloadOk item_data.id 0
          (item_data.images.take env.maxImages) }

/-- One iteration of the `for product_id in product_ids` loop of
`_poll_once` (toribot_base.py 702-722). -/
def pollStep (env : PollEnv) (acc : PollResult) (product_id : String) :
    PollResult :=
  if item_exists acc.db (.str product_id) then acc
  else
    match env.itemHtml product_id with
    | none => { acc with fetchedIds := acc.fetchedIds ++ [product_id] }
    | some ihtml =>
      if ihtml = "" then { acc with fetchedIds := acc.fetchedIds ++ [product_id] }
      else
        let item_data := extract_product_details (some ihtml) product_id env.now
        let item_data2 :=
          if env.downloadEnabled then download_item_images env item_data
          else item_data
        { db := add_item acc.db (.str product_id) item_data2
          fetchedIds := acc.fetchedIds ++ [product_id]
          upsertedIds := acc.upsertedIds ++ [product_id] }

/-- Method `_poll_once` (`if not html: return`, extract the id list, process each
id). -/
def poll_once (env : PollEnv) (db : Store) : PollResult :=
  match env.listingHtml with
  | none => ⟨db, [], []⟩
  | some html =>
    if html = "" then ⟨db, [], []⟩
    else (extract_product_ids html).foldl (pollStep env) ⟨db, [], []⟩

/-! ## Association-list (Python dict) lemmas -/

lemma lookup_dictSet_self {α : Type} :
    ∀ (d : List (String × α)) (k : String) (v : α),
      (dictSet d k v).lookup k = some v := by
  intro d k v
  induction d with
  | nil => simp [dictSet, List.lookup]
  | cons kv rest ih =>
    obtain ⟨k2, v2⟩ := kv
    by_cases h : k2 = k
    · simp [dictSet, h, List.lookup]
    · simp only [dictSet, if_neg h, List.lookup]
      have : (k == k2) = false := by
        simp [beq_iff_eq]
        exact fun hk => h hk.symm
      simp [this, ih]

lemma lookup_dictSet_ne {α : Type} :
    ∀ (d : List (String × α)) (k k2 : String) (v : α), k2 ≠ k →
      (dictSet d k v).lookup k2 = d.lookup k2 := by
  intro d k k2 v hne
  have hbe : (k2 == k) = false := by simp [beq_iff_eq, hne]
  induction d with
  | nil => simp [dictSet, List.lookup, hbe]
  | cons kv rest ih =>
    obtain ⟨k3, v3⟩ := kv
    by_cases h : k3 = k
    · subst h
      simp [dictSet, List.lookup, hbe]
    · simp only [dictSet, if_neg h, List.lookup]
      cases hbe2 : (k2 == k3) <;> simp [ih]

lemma lookup_dictSet_isSome {α : Type} (d : List (String × α)) (k k2 : String)
    (v : α) (h : (d.lookup k2).isSome) :
    ((dictSet d k v).lookup k2).isSome := by
  by_cases he : k2 = k
  · subst he; simp [lookup_dictSet_self]
  · rw [lookup_dictSet_ne d k k2 v he]; exact h

lemma mem_dictKeys_iff_lookup {α : Type} :
    ∀ (d : List (String × α)) (k : String),
      k ∈ dictKeys d ↔ (d.lookup k).isSome := by
  intro d k
  induction d with
  | nil => simp [dictKeys, List.lookup]
  | cons kv rest ih =>
    obtain ⟨k2, v2⟩ := kv
    by_cases h : k = k2
    · subst h; simp [dictKeys, List.lookup]
    · have : (k == k2) = false := by simp [beq_iff_eq, h]
      simp [dictKeys, List.lookup, this, h, ih]

lemma mem_dictKeys_dictSet {α : Type} :
    ∀ (d : List (String × α)) (k : String) (v : α) (x : String),
      x ∈ dictKeys (dictSet d k v) ↔ x ∈ dictKeys d ∨ x = k := by
  intro d k v x
  rw [mem_dictKeys_iff_lookup, mem_dictKeys_iff_lookup]
  by_cases h : x = k
  · subst h; simp [lookup_dictSet_self]
  · rw [lookup_dictSet_ne d k x v h]; simp [h]

lemma nodup_dictKeys_dictSet {α : Type} :
    ∀ (d : List (String × α)) (k : String) (v : α),
      (dictKeys d).Nodup → (dictKeys (dictSet d k v)).Nodup := by
  intro d k v hnd
  induction d with
  | nil => simp [dictSet, dictKeys]
  | cons kv rest ih =>
    obtain ⟨k2, v2⟩ := kv
    simp only [dictKeys, List.map_cons, List.nodup_cons] at hnd
    by_cases h : k2 = k
    · subst h
      simpa [dictSet, dictKeys, List.nodup_cons] using hnd
    · simp only [dictSet, if_neg h, dictKeys, List.map_cons, List.nodup_cons]
      refine ⟨?_, ih hnd.2⟩
      intro hmem
      rw [show (dictSet rest k v).map Prod.fst = dictKeys (dictSet rest k v) from rfl,
        mem_dictKeys_dictSet] at hmem
      rcases hmem with hmem | hmem
      · exact hnd.1 hmem
      · exact h hmem

/-! ## C1 -/

/-- C1: if the first `k ≤ max_retries` attempts of `_fetch_with_retries`
fail and attempt `k` succeeds, the successful response is returned after
`k + 1` attempts with total backoff `2^0 + ... + 2^(k-1)`; if every attempt
fails, exactly `max_retries + 1` attempts are made and the caller receives
`None` (an explicit failure signal) rather than a raised exception. -/
theorem fetch_retry_spec (maxRetries k : Nat) (oracle : Nat → Option String)
    (r : String) :
    (k ≤ maxRetries → (∀ i, i < k → oracle i = none) → oracle k = some r →
      fetchWithRetries maxRetries oracle =
        ⟨some r, k + 1, (Finset.range k).sum (fun i => 2 ^ i)⟩) ∧
    ((∀ i, i ≤ maxRetries → oracle i = none) →
      fetchWithRetries maxRetries oracle =
        ⟨none, maxRetries + 1,
          (Finset.range maxRetries).sum (fun i => 2 ^ i)⟩) := by
  constructor
  · intro hle hfail hk
    have h := fetchAux_succeeds oracle r k 0 maxRetries hle
      (fun i hi => by simpa using hfail i hi) (by simpa using hk)
    simpa [fetchWithRetries] using h
  · intro hfail
    have h := fetchAux_all_fail oracle maxRetries 0
      (fun i hi => by simpa using hfail i hi)
    simpa [fetchWithRetries] using h

/-- Network oracle failing twice, then succeeding. -/
def oracleC1 : Nat → Option String := fun n => if n < 2 then none else some "ok"

/-- Witness for C1 at `max_retries = 3, k = 2` and at `max_retries = 2`
with a permanently failing oracle (3 attempts, backoff 1 + 2 = 3). -/
theorem fetch_retry_spec_witness :
    fetchWithRetries 3 oracleC1 = ⟨some "ok", 3, 3⟩ ∧
    fetchWithRetries 2 (fun _ => none) = ⟨none, 3, 3⟩ := by
  constructor
  · have h := (fetch_retry_spec 3 2 oracleC1 "ok").1 (by decide)
      (fun i hi => by
        match i, hi with
        | 0, _ => rfl
        | 1, _ => rfl) rfl
    exact h.trans (by decide)
  · have h := (fetch_retry_spec 2 0 (fun _ => none) "x").2 (fun i _ => rfl)
    exact h.trans (by decide)

/-! ## C2 -/

/-- C2: `extract_product_details` is total (the `try/except` guarantees a
well-formed record for every input — it never raises to the caller): on
every input `id` and `url` are correctly derived from the given item id,
and on the exceptional path (a raising input, modelled by `none`) every
extractable field is null/empty and `errors` holds exactly one entry
describing the exception. -/
theorem extract_details_total_spec (html : Option String)
    (item_id now : String) :
    ((extract_product_details html item_id now).id = item_id ∧
     (extract_product_details html item_id now).url =
       "https://www.tori.fi/recommerce/forsale/item/" ++ item_id) ∧
    (html = none →
      (extract_product_details html item_id now).title = none ∧
      (extract_product_details html item_id now).description = none ∧
      (extract_product_details html item_id now).location = none ∧
      (extract_product_details html item_id now).seller = none ∧
      (extract_product_details html item_id now).images = [] ∧
      (extract_product_details html item_id now).image_files = [] ∧
      (extract_product_details html item_id now).valuation = none ∧
      (extract_product_details html item_id now).errors =
        some ["Exception during extraction: " ++ reNoneTypeMsg]) := by
  constructor
  · cases html <;> simp [extract_product_details, itemUrl]
  · rintro rfl
    simp [extract_product_details]

/-- Witness for C2 on the raising input (`html = None`). -/
theorem extract_details_total_spec_witness :
    (extract_product_details none "77" "t0").id = "77" ∧
    (extract_product_details none "77" "t0").url =
      "https://www.tori.fi/recommerce/forsale/item/77" ∧
    (extract_product_details none "77" "t0").title = none ∧
    (extract_product_details none "77" "t0").errors =
      some ["Exception during extraction: " ++ reNoneTypeMsg] := by
  have h := extract_details_total_spec none "77" "t0"
  have h2 := h.2 rfl
  exact ⟨h.1.1, h.1.2, h2.1, h2.2.2.2.2.2.2.2⟩

/-! ## C5 -/

/-- C5 counterexample: the claim quantifies over every narrative text, but
`re.search` takes the FIRST match of `HINTA_UUTENA:\s*(\d+)€?`: a text that
contains the substring `HINTA_UUTENA: 50€` (and `ARVO_NYT: 20€`) but has an
earlier `HINTA_UUTENA: 7€` label parses to `price_new = 7`, not 50. -/
theorem valuation_parse_counterexample :
    pyIn "HINTA_UUTENA: 50€" "HINTA_UUTENA: 7€ HINTA_UUTENA: 50€ ARVO_NYT: 20€"
      = true ∧
    pyIn "ARVO_NYT: 20€" "HINTA_UUTENA: 7€ HINTA_UUTENA: 50€ ARVO_NYT: 20€"
      = true ∧
    (valuate_item_parse "HINTA_UUTENA: 7€ HINTA_UUTENA: 50€ ARVO_NYT: 20€"
      "gpt-4o-mini" "t1").price_new = some 7 := by decide

/-- C5 (amended): with first-match semantics — on a narrative whose only
new-price label is `HINTA_UUTENA: 50€` and only current-value label is
`ARVO_NYT: 20€`, the parse yields `price_new = 50`, `price_current = 20`
(and `price_estimate` mirrors `price_current`); on a narrative carrying
only the legacy `ARVO: 15€` label the fallback yields `price_current = 15`
with `price_new = None`; a narrative without any price label is not an
error: the result is still a completed valuation with both prices `None`. -/
theorem valuation_parse_spec :
    ((valuate_item_parse "Hieno tuote, hyvä kunto.\nHINTA_UUTENA: 50€\nARVO_NYT: 20€"
        "gpt-4o-mini" "t1").price_new = some 50 ∧
     (valuate_item_parse "Hieno tuote, hyvä kunto.\nHINTA_UUTENA: 50€\nARVO_NYT: 20€"
        "gpt-4o-mini" "t1").price_current = some 20 ∧
     (valuate_item_parse "Hieno tuote, hyvä kunto.\nHINTA_UUTENA: 50€\nARVO_NYT: 20€"
        "gpt-4o-mini" "t1").price_estimate = some 20) ∧
    ((valuate_item_parse "Vanha malli. ARVO: 15€" "gpt-4o-mini" "t1").price_current
        = some 15 ∧
     (valuate_item_parse "Vanha malli. ARVO: 15€" "gpt-4o-mini" "t1").price_new
        = none) ∧
    ((valuate_item_parse "Ei hintatietoa saatavilla." "gpt-4o-mini" "t1").price_new
        = none ∧
     (valuate_item_parse "Ei hintatietoa saatavilla." "gpt-4o-mini" "t1").price_current
        = none ∧
     (valuate_item_parse "Ei hintatietoa saatavilla." "gpt-4o-mini" "t1").status
        = "completed" ∧
     (valuate_item_parse "Ei hintatietoa saatavilla." "gpt-4o-mini" "t1").message
        = none) := by decide

/-! ## C6 -/

/-- C6: `update_settings` validates before applying: a
`poll_interval_seconds = 5` update fails validation (`< 10`) and leaves the
whole settings state (heap included) unchanged — no partial apply; a
`poll_interval_seconds = 30` update succeeds and a subsequent
`get_settings` read returns 30 for that key. -/
theorem update_settings_validation_spec (st : SMState) :
    update_settings st [("poll_interval_seconds", .scalar (.int 5))] =
      (st, some "poll_interval_seconds must be >= 10") ∧
    (update_settings st [("poll_interval_seconds", .scalar (.int 30))]).2 = none ∧
    snapTop
      (get_settings
        ((update_settings st [("poll_interval_seconds", .scalar (.int 30))]).1))
      "poll_interval_seconds" = some (.scalar (.int 30)) := by
  have hv : validateSettings [("poll_interval_seconds", .scalar (.int 30))]
      = none := by decide
  refine ⟨rfl, ?_, ?_⟩
  · simp [update_settings, hv, updateLoop]
  · simp only [update_settings, hv, updateLoop, get_settings, snapTop]
    exact lookup_dictSet_self st.settings "poll_interval_seconds" _

/-! ## C8 -/

/-- The claim-side predicate: an item needs valuation iff its `valuation`
field is absent or its status is `"pending"`. -/
def needsValuationSpec (it : ItemRecord) : Prop :=
  it.valuation = none ∨ ∃ v, it.valuation = some v ∧ v.status = "pending"

instance (it : ItemRecord) : Decidable (needsValuationSpec it) := by
  unfold needsValuationSpec
  cases h : it.valuation with
  | none => exact isTrue (Or.inl rfl)
  | some v =>
    by_cases hs : v.status = "pending"
    · exact isTrue (Or.inr ⟨v, rfl, hs⟩)
    · refine isFalse ?_
      rintro (h1 | ⟨w, hw, hws⟩)
      · exact Option.noConfusion h1
      · cases hw; exact hs hws

/-- A minimal record used by the concrete stores of the theorems. -/
def plainRec (i : String) : ItemRecord :=
  { id := i, url := itemUrl i, title := none, description := none,
    location := none, seller := none, images := [], image_files := [],
    discovered_at := "t0", updated_at := "t0", errors := none,
    valuation := none }

def recWithStatus (i status : String) : ItemRecord :=
  { plainRec i with
      valuation := some
        { status := status, text := none, price_new := none,
          price_current := none, price_estimate := none, model := none,
          timestamp := "t0", message := none } }

/-- C8: `get_items_needing_valuation` returns exactly the items whose
`valuation` is absent or whose `valuation.status` is `"pending"`; in
particular it includes an item without a `valuation` field and excludes
items whose status is `"completed"` or `"error"`. -/
theorem needing_valuation_spec (db : Store) :
    get_items_needing_valuation db =
      db.filter (fun kv => decide (needsValuationSpec kv.2)) ∧
    get_items_needing_valuation
      [("1", plainRec "1"), ("2", recWithStatus "2" "completed"),
       ("3", recWithStatus "3" "pending"), ("4", recWithStatus "4" "error")] =
      [("1", plainRec "1"), ("3", recWithStatus "3" "pending")] := by
  constructor
  · unfold get_items_needing_valuation
    refine List.filter_congr (fun kv _ => ?_)
    cases h : kv.2.valuation with
    | none => simp [needsValuationSpec, h]
    | some v =>
      by_cases hs : v.status = "pending" <;>
        simp [needsValuationSpec, h, hs]
  · decide

/-! ## C9 -/

/-- The concrete listing page of the claim: three item links with ids
111, 222, 111. -/
def pageC9 : String :=
  "<a href=\"/recommerce/forsale/item/111\">a</a> <a href='/recommerce/forsale/item/222'>b</a> <a href=\"/recommerce/forsale/item/111\">c</a>"

/-- C9: `extract_product_ids` returns the ids matched by the item-link
pattern as a set — duplicate-free, and containing exactly the matches of
the scan (no order guarantee, so only set-level facts hold); on a page with
item links 111, 222, 111 the result is exactly the id set {111, 222}. -/
theorem extract_ids_set_spec (html : String) :
    (extract_product_ids html).Nodup ∧
    (∀ x, x ∈ extract_product_ids html ↔ x ∈ findIds html.data) ∧
    (extract_product_ids pageC9).toFinset = ({"111", "222"} : Finset String) := by
  refine ⟨?_, ?_, by decide⟩
  · unfold extract_product_ids
    by_cases h : html = "" <;> simp [h, List.nodup_dedup]
  · intro x
    unfold extract_product_ids
    by_cases h : html = ""
    · subst h
      simp [findIds, reFindAll, reFindAllAux, matchIdAt]
    · simp [h, List.mem_dedup]

/-- Witness for C9: both ids are members, derived through the
characterisation. -/
theorem extract_ids_set_spec_witness :
    "111" ∈ extract_product_ids pageC9 ∧ "222" ∈ extract_product_ids pageC9 := by
  constructor
  · exact ((extract_ids_set_spec pageC9).2.1 "111").mpr (by decide)
  · exact ((extract_ids_set_spec pageC9).2.1 "222").mpr (by decide)

/-! ## C10 -/

/-- C10: the store normalizes keys with `str(...)`: after `add_item id r`,
both `item_exists id` and `item_exists str(id)` hold and `get_item id`
returns `r`; the int key `123` and the str key `"123"` address the same
single entry (so mixed-type callers cannot create duplicates), and
`add_item` preserves key uniqueness. -/
theorem store_key_normalization_spec (db : Store) (k : PyKey)
    (r r2 : ItemRecord) :
    item_exists (add_item db k r) k = true ∧
    item_exists (add_item db k r) (.str (pyKeyStr k)) = true ∧
    get_item (add_item db k r) k = some r ∧
    get_item (add_item (add_item db (.int 123) r) (.str "123") r2) (.int 123)
      = some r2 ∧
    get_item (add_item (add_item db (.int 123) r) (.str "123") r2) (.str "123")
      = some r2 ∧
    ((dictKeys db).Nodup → (dictKeys (add_item db k r)).Nodup) := by
  refine ⟨?_, ?_, ?_, ?_, ?_, ?_⟩
  · simp [item_exists, add_item, lookup_dictSet_self]
  · simp [item_exists, add_item, pyKeyStr, lookup_dictSet_self]
  · simp [get_item, add_item, lookup_dictSet_self]
  · have h123 : pyIntStr 123 = "123" := by decide
    simp [get_item, add_item, pyKeyStr, h123, lookup_dictSet_self]
  · have h123 : pyIntStr 123 = "123" := by decide
    simp [get_item, add_item, pyKeyStr, h123, lookup_dictSet_self]
  · exact fun h => nodup_dictKeys_dictSet db (pyKeyStr k) r h

/-- Witness for C10 at the int key 7 / str key "7". -/
theorem store_key_normalization_spec_witness :
    item_exists (add_item [] (.int 7) (plainRec "7")) (.str "7") = true ∧
    (dictKeys (add_item [] (.int 7) (plainRec "7"))).Nodup := by
  refine ⟨?_, ?_⟩
  · exact (store_key_normalization_spec [] (.int 7) (plainRec "7")
      (plainRec "7")).2.1
  · exact (store_key_normalization_spec [] (.int 7) (plainRec "7")
      (plainRec "7")).2.2.2.2.2 (by decide)

/-! ## C4 lemmas -/

lemma uniqueCap5_append_sublist :
    ∀ (l seen unique : List (List Char)),
      ∃ s, uniqueCap5 seen unique l = unique ++ s ∧ s.Sublist l := by
  intro l
  induction l with
  | nil =>
    intro seen unique
    exact ⟨[], by simp [uniqueCap5], List.nil_sublist []⟩
  | cons x rest ih =>
    intro seen unique
    simp only [uniqueCap5]
    split
    · obtain ⟨s, hs, hsub⟩ := ih (x :: seen) (unique ++ [x])
      refine ⟨x :: s, ?_, hsub.cons₂ x⟩
      rw [hs, List.append_assoc]
      rfl
    · obtain ⟨s, hs, hsub⟩ := ih seen unique
      exact ⟨s, hs, hsub.cons x⟩

lemma uniqueCap5_nodup :
    ∀ (l seen unique : List (List Char)), unique.Nodup →
      (∀ x ∈ unique, x ∈ seen) → (uniqueCap5 seen unique l).Nodup := by
  intro l
  induction l with
  | nil => intro seen unique h _; simpa [uniqueCap5] using h
  | cons x rest ih =>
    intro seen unique hnd hsub
    simp only [uniqueCap5]
    split
    · rename_i hcond
      have hx : x ∉ seen := by
        have h1 := (Bool.and_eq_true _ _).mp hcond |>.1
        simpa using h1
      refine ih (x :: seen) (unique ++ [x]) ?_ ?_
      · rw [List.nodup_append]
        refine ⟨hnd, List.nodup_singleton x, ?_⟩
        intro a ha hax
        rw [List.mem_singleton] at hax
        subst hax
        exact hx (hsub a ha)
      · intro y hy
        rcases List.mem_append.mp hy with h1 | h1
        · exact List.mem_cons_of_mem x (hsub y h1)
        · rw [List.mem_singleton] at h1
          rw [h1]
          exact List.mem_cons_self _ _
    · exact ih seen unique hnd hsub

lemma uniqueCap5_length :
    ∀ (l seen unique : List (List Char)), unique.length ≤ 5 →
      (uniqueCap5 seen unique l).length ≤ 5 := by
  intro l
  induction l with
  | nil => intro _ _ h; simpa [uniqueCap5] using h
  | cons x rest ih =>
    intro seen unique h
    simp only [uniqueCap5]
    split
    · rename_i hcond
      have hlen : unique.length < 5 := by
        have h2 := (Bool.and_eq_true _ _).mp hcond |>.2
        simpa using h2
      exact ih _ _ (by simp; omega)
    · exact ih _ _ h

lemma subIn_iff_contiguous : ∀ (pat cs : List Char), subIn pat cs = true ↔ pat <:+: cs := by
  intro pat cs
  induction cs with
  | nil =>
    simp only [subIn, List.isPrefixOf_iff_prefix]
    constructor
    · intro h; exact h.isInfix
    · intro h; exact (List.infix_nil.mp h) ▸ List.nil_prefix
  | cons c rest ih =>
    simp only [subIn, Bool.or_eq_true, List.isPrefixOf_iff_prefix, ih]
    rw [List.infix_cons_iff]

lemma subIn_map_toLower (t cs : List Char) (h : subIn t cs = true) :
    subIn (t.map Char.toLower) (cs.map Char.toLower) = true := by
  rw [subIn_iff_contiguous] at h ⊢
  exact h.map Char.toLower

/-- C4 (for the toribot_base.py extractor): every URL in the `images` field
of an extracted record survives the validation filter — it has an allowed
image-file extension, contains a trusted-domain substring, and contains no
denylisted ad/UI substring (neither in lowercase nor literally); the list
is duplicate-free, is a subsequence of the filtered pattern-scan (so it
preserves first-seen order), and has length at most 5. -/
theorem base_images_filter_spec (html item_id now : String) :
    ((extract_product_details (some html) item_id now).images.map String.data).Sublist
        ((collectBaseImages html.data).filter validImage) ∧
    (extract_product_details (some html) item_id now).images.Nodup ∧
    (extract_product_details (some html) item_id now).images.length ≤ 5 ∧
    (∀ u, u ∈ (extract_product_details (some html) item_id now).images →
      extEndOk u.data = true ∧
      (subIn "tori.fi".data u.data || subIn "tor.se".data u.data ||
        subIn "images".data u.data) = true ∧
      (∀ t, t ∈ adTerms → subIn t (u.data.map Char.toLower) = false) ∧
      (∀ t, t ∈ adTerms → subIn t u.data = false)) := by
  have himg : (extract_product_details (some html) item_id now).images =
      (baseImages html.data).map (fun u => String.mk u) := rfl
  have hdata : (extract_product_details (some html) item_id now).images.map
      String.data = baseImages html.data := by
    rw [himg, List.map_map]
    exact List.map_id _
  obtain ⟨s, hs, hsub⟩ :=
    uniqueCap5_append_sublist ((collectBaseImages html.data).filter validImage)
      [] []
  have hbase : baseImages html.data =
      uniqueCap5 [] [] ((collectBaseImages html.data).filter validImage) := rfl
  have hs2 : baseImages html.data = s := by rw [hbase, hs]; rfl
  refine ⟨?_, ?_, ?_, ?_⟩
  · rw [hdata, hs2]; exact hsub
  · rw [himg]
    refine List.Nodup.map (fun a b hab => congrArg String.data hab) ?_
    exact uniqueCap5_nodup _ [] [] List.nodup_nil (fun x hx => absurd hx
      (List.not_mem_nil x))
  · rw [himg, List.length_map]
    exact uniqueCap5_length _ [] [] (by simp)
  · intro u hu
    rw [himg, List.mem_map] at hu
    obtain ⟨v, hv, huv⟩ := hu
    have hud : u.data = v := by rw [← huv]
    have hvf : v ∈ (collectBaseImages html.data).filter validImage := by
      rw [hs2] at hv
      exact hsub.subset hv
    have hvalid : validImage v = true := List.of_mem_filter hvf
    unfold validImage at hvalid
    rw [Bool.and_eq_true] at hvalid
    obtain ⟨h1, h5⟩ := hvalid
    rw [Bool.and_eq_true] at h1
    obtain ⟨h1, h4⟩ := h1
    rw [Bool.and_eq_true] at h1
    obtain ⟨h1, h3⟩ := h1
    rw [Bool.and_eq_true] at h1
    obtain ⟨h1a, h2⟩ := h1
    have hadlow : ∀ t, t ∈ adTerms → subIn t (v.map Char.toLower) = false := by
      intro t ht
      by_contra hcon
      rw [Bool.not_eq_false] at hcon
      have : adTerms.any (fun t => subIn t (v.map Char.toLower)) = true :=
        List.any_eq_true.mpr ⟨t, ht, hcon⟩
      rw [this] at h4
      exact Bool.noConfusion h4
    refine ⟨by rw [hud]; exact h5, by rw [hud]; exact h3, ?_, ?_⟩
    · intro t ht
      rw [hud]
      exact hadlow t ht
    · intro t ht
      rw [hud]
      by_contra hcon
      rw [Bool.not_eq_false] at hcon
      have hlow := subIn_map_toLower t v hcon
      have htl : ∀ t2 ∈ adTerms, t2.map Char.toLower = t2 := by decide
      rw [htl t ht] at hlow
      have := hadlow t ht
      rw [hlow] at this
      exact Bool.noConfusion this

/-- C4 counterexample: the claim fails on the `extract_product_details`
copy in toribot.py (cited by the claim alongside the base module): on a
page whose embedded data is `"image":"https://x/banner"` the returned
`images` field contains a URL with no allowed image extension, no
trusted-domain substring, and a denylisted substring (`banner`). -/
theorem toribot_images_counterexample :
    (toribot_extract_product_details (some "\x7b\"image\":\"https://x/banner\"\x7d")
        "9" "t0").images = ["https://x/banner"] ∧
    extEndOk "https://x/banner".data = false ∧
    subIn "banner".data "https://x/banner".data = true ∧
    "banner".data ∈ adTerms ∧
    (subIn "tori.fi".data "https://x/banner".data ||
      subIn "tor.se".data "https://x/banner".data ||
      subIn "images".data "https://x/banner".data) = false := by decide

/-- Concrete item page for the C4 witness: one structured main image. -/
def htmlC4 : String := "x\"mainImage\": \"https://images.tori.fi/a.jpg\" y"

/-- Witness for C4 on a concrete page: the surviving URL satisfies all
filter obligations and the list respects the cap. -/
theorem base_images_filter_spec_witness :
    (extract_product_details (some htmlC4) "1" "t0").images =
      ["https://images.tori.fi/a.jpg"] ∧
    extEndOk "https://images.tori.fi/a.jpg".data = true ∧
    (∀ t, t ∈ adTerms →
      subIn t "https://images.tori.fi/a.jpg".data = false) ∧
    (extract_product_details (some htmlC4) "1" "t0").images.length ≤ 5 := by
  have h := base_images_filter_spec htmlC4 "1" "t0"
  have hm := h.2.2.2 "https://images.tori.fi/a.jpg" (by decide)
  exact ⟨by decide, hm.1, hm.2.2.2, h.2.2.1⟩

/-! ## C7 -/

/-- A settings state with one nested dict (the `openai` section) on the
heap. -/
def smC7 : SMState :=
  { nested := [[("enabled", .bool false), ("api_key", .str "")]],
    settings := [("poll_interval_seconds", .scalar (.int 60)),
                 ("openai", .ref 0)] }

/-- C7 counterexample: `get_settings` returns a SHALLOW copy
(`self.settings.copy()`), and `update_settings` mutates nested dicts in
place (`self.settings[key].update(...)`), so a nested update such as
`openai.enabled` IS visible through a previously returned snapshot: the
snapshot observes `enabled = false` before the update and `enabled = true`
after it. -/
theorem settings_snapshot_counterexample :
    snapNested (get_settings smC7) smC7 "openai" "enabled"
      = some (.bool false) ∧
    snapNested (get_settings smC7)
      ((update_settings smC7 [("openai", .dict [("enabled", .bool true)])]).1)
      "openai" "enabled" = some (.bool true) := by decide

lemma updateLoop_nested_const :
    ∀ (new : List (String × NewVal)) (st : SMState),
      (∀ kv ∈ new, ∃ sc, kv.2 = NewVal.scalar sc) →
      ((updateLoop st new).1).nested = st.nested := by
  intro new
  induction new with
  | nil => intro st _; rfl
  | cons kv rest ih =>
    intro st hall
    obtain ⟨k, v⟩ := kv
    obtain ⟨sc, hsc⟩ := hall (k, v) (List.mem_cons_self _ _)
    simp only at hsc
    subst hsc
    simp only [updateLoop]
    exact ih _ (fun kv2 h2 => hall kv2 (List.mem_cons_of_mem _ h2))

/-- C7 (amended): a snapshot returned by `get_settings` is unaffected by a
subsequent `update_settings` whose values are all top-level scalars — the
snapshot's own (copied) top level never changes, and with no dict-valued
update the shared nested heap is untouched, so every nested value
observable through the snapshot reads the same before and after.  (The
original claim's universal form — including nested-key updates such as
`openai.enabled` — is refuted by `settings_snapshot_counterexample`: the
top-level copy is shallow and nested dicts are mutated in place.) -/
theorem settings_snapshot_scalar_spec (st : SMState)
    (new : List (String × NewVal)) (k sub : String)
    (hall : ∀ kv ∈ new, ∃ sc, kv.2 = NewVal.scalar sc) :
    snapNested (get_settings st) ((update_settings st new).1) k sub =
      snapNested (get_settings st) st k sub := by
  unfold update_settings
  cases hv : validateSettings new with
  | some msg => rfl
  | none =>
    have hn := updateLoop_nested_const new st hall
    unfold snapNested
    cases hl : (get_settings st).lookup k with
    | none => rfl
    | some sv =>
      cases sv with
      | scalar v => rfl
      | ref i => simp only [hn]

/-- Witness for C7 (amended) at a concrete state and scalar update. -/
theorem settings_snapshot_scalar_spec_witness :
    snapNested (get_settings smC7)
      ((update_settings smC7
        [("poll_interval_seconds", NewVal.scalar (.int 30))]).1)
      "openai" "enabled" =
    snapNested (get_settings smC7) smC7 "openai" "enabled" := by
  refine settings_snapshot_scalar_spec smC7
    [("poll_interval_seconds", NewVal.scalar (.int 30))] "openai" "enabled" ?_
  intro kv hkv
  rw [List.mem_singleton] at hkv
  subst hkv
  exact ⟨.int 30, rfl⟩

/-! ## C3 lemmas -/

/-- A detail-page fetch that fails (`fetch_item_page` returns `None` or an
empty text, both falsy in `if not item_html`). -/
def fetchFails (env : PollEnv) (p : String) : Prop :=
  env.itemHtml p = none ∨ env.itemHtml p = some ""

/-- The record added for a new id whose detail page was fetched. -/
def newItemRecord (env : PollEnv) (p ihtml : String) : ItemRecord :=
  if env.downloadEnabled then
    download_item_images env (extract_product_details (some ihtml) p env.now)
  else extract_product_details (some ihtml) p env.now

lemma pollStep_eq_of_exists (env : PollEnv) (acc : PollResult) (p : String)
    (h : item_exists acc.db (.str p) = true) : pollStep env acc p = acc := by
  unfold pollStep
  rw [if_pos h]

lemma pollStep_eq_of_fail_none (env : PollEnv) (acc : PollResult) (p : String)
    (hex : item_exists acc.db (.str p) = false)
    (him : env.itemHtml p = none) :
    pollStep env acc p = { acc with fetchedIds := acc.fetchedIds ++ [p] } := by
  unfold pollStep
  rw [if_neg (by rw [hex]; exact Bool.false_ne_true), him]

lemma pollStep_eq_of_fail_empty (env : PollEnv) (acc : PollResult) (p : String)
    (hex : item_exists acc.db (.str p) = false)
    (him : env.itemHtml p = some "") :
    pollStep env acc p = { acc with fetchedIds := acc.fetchedIds ++ [p] } := by
  unfold pollStep
  rw [if_neg (by rw [hex]; exact Bool.false_ne_true), him]
  rfl

lemma pollStep_eq_of_new (env : PollEnv) (acc : PollResult) (p ihtml : String)
    (hex : item_exists acc.db (.str p) = false)
    (him : env.itemHtml p = some ihtml) (hne : ihtml ≠ "") :
    pollStep env acc p =
      { db := add_item acc.db (.str p) (newItemRecord env p ihtml),
        fetchedIds := acc.fetchedIds ++ [p],
        upsertedIds := acc.upsertedIds ++ [p] } := by
  unfold pollStep
  rw [if_neg (by rw [hex]; exact Bool.false_ne_true), him]
  simp only [if_neg hne]
  rfl

lemma pollStep_lookup_preserved (env : PollEnv) (acc : PollResult)
    (p k : String) (r : ItemRecord) (h : acc.db.lookup k = some r) :
    (pollStep env acc p).db.lookup k = some r := by
  by_cases hex : item_exists acc.db (.str p) = true
  · rw [pollStep_eq_of_exists env acc p hex]
    exact h
  · rw [Bool.not_eq_true] at hex
    have hkp : k ≠ p := by
      intro he
      subst he
      have : item_exists acc.db (.str k) = true := by
        show (acc.db.lookup k).isSome = true
        rw [h]
        rfl
      rw [this] at hex
      exact Bool.noConfusion hex
    cases him : env.itemHtml p with
    | none =>
      rw [pollStep_eq_of_fail_none env acc p hex him]
      exact h
    | some ihtml =>
      by_cases hemp : ihtml = ""
      · subst hemp
        rw [pollStep_eq_of_fail_empty env acc p hex him]
        exact h
      · rw [pollStep_eq_of_new env acc p ihtml hex him hemp]
        exact (lookup_dictSet_ne acc.db p k _ hkp).trans h

lemma foldl_pollStep_lookup_preserved (env : PollEnv) :
    ∀ (ids : List String) (acc : PollResult) (k : String) (r : ItemRecord),
      acc.db.lookup k = some r →
      ((ids.foldl (pollStep env) acc).db.lookup k = some r) := by
  intro ids
  induction ids with
  | nil => intro acc k r h; exact h
  | cons q rest ih =>
    intro acc k r h
    rw [List.foldl_cons]
    exact ih _ k r (pollStep_lookup_preserved env acc q k r h)

lemma foldl_pollStep_isSome (env : PollEnv) (ids : List String)
    (acc : PollResult) (k : String) (h : (acc.db.lookup k).isSome = true) :
    (((ids.foldl (pollStep env) acc).db.lookup k).isSome = true) := by
  obtain ⟨r, hr⟩ := Option.isSome_iff_exists.mp h
  rw [foldl_pollStep_lookup_preserved env ids acc k r hr]
  rfl

lemma pollStep_self_post (env : PollEnv) (acc : PollResult) (p : String) :
    ((pollStep env acc p).db.lookup p).isSome = true ∨ fetchFails env p := by
  by_cases hex : item_exists acc.db (.str p) = true
  · rw [pollStep_eq_of_exists env acc p hex]
    exact Or.inl hex
  · rw [Bool.not_eq_true] at hex
    cases him : env.itemHtml p with
    | none => exact Or.inr (Or.inl him)
    | some ihtml =>
      by_cases hemp : ihtml = ""
      · subst hemp
        exact Or.inr (Or.inr him)
      · left
        rw [pollStep_eq_of_new env acc p ihtml hex him hemp]
        show ((dictSet acc.db p _).lookup p).isSome = true
        rw [lookup_dictSet_self]
        rfl

lemma foldl_pollStep_post (env : PollEnv) :
    ∀ (ids : List String) (acc : PollResult) (p : String), p ∈ ids →
      (((ids.foldl (pollStep env) acc).db.lookup p).isSome = true ∨
        fetchFails env p) := by
  intro ids
  induction ids with
  | nil => intro acc p hp; exact absurd hp (List.not_mem_nil p)
  | cons q rest ih =>
    intro acc p hp
    rw [List.foldl_cons]
    rcases List.mem_cons.mp hp with h1 | h1
    · subst h1
      rcases pollStep_self_post env acc p with h2 | h2
      · exact Or.inl (foldl_pollStep_isSome env rest _ p h2)
      · exact Or.inr h2
    · exact ih _ p h1

lemma foldl_pollStep_noop (env : PollEnv) :
    ∀ (ids : List String) (acc : PollResult),
      (∀ p ∈ ids, (acc.db.lookup p).isSome = true ∨ fetchFails env p) →
      ids.foldl (pollStep env) acc =
        ⟨acc.db,
         acc.fetchedIds ++ ids.filter (fun p => !(acc.db.lookup p).isSome),
         acc.upsertedIds⟩ := by
  intro ids
  induction ids with
  | nil => intro acc _; simp
  | cons q rest ih =>
    intro acc hall
    rw [List.foldl_cons]
    by_cases hs : (acc.db.lookup q).isSome = true
    · have hex : item_exists acc.db (.str q) = true := hs
      rw [pollStep_eq_of_exists env acc q hex,
        ih acc (fun p hp => hall p (List.mem_cons_of_mem q hp))]
      have hq : (!(acc.db.lookup q).isSome) = false := by simp [hs]
      rw [List.filter_cons_of_neg (by simpa using hq)]
    · have hex : item_exists acc.db (.str q) = false := by
        show (acc.db.lookup q).isSome = false
        rwa [Bool.not_eq_true] at hs
      have hff : fetchFails env q := by
        rcases hall q (List.mem_cons_self q rest) with h1 | h1
        · exact absurd h1 hs
        · exact h1
      have hstep : pollStep env acc q =
          { acc with fetchedIds := acc.fetchedIds ++ [q] } := by
        rcases hff with h1 | h1
        · exact pollStep_eq_of_fail_none env acc q hex h1
        · exact pollStep_eq_of_fail_empty env acc q hex h1
      rw [hstep,
        ih { acc with fetchedIds := acc.fetchedIds ++ [q] }
          (fun p hp => hall p (List.mem_cons_of_mem q hp))]
      have hq : (!(acc.db.lookup q).isSome) = true := by
        rwa [Bool.not_eq_true', ← Bool.not_eq_true]
      rw [List.filter_cons_of_pos (by simpa using hq), List.append_assoc]
      rfl

lemma pollStep_known (env : PollEnv) (acc : PollResult) (p k : String)
    (hk : (acc.db.lookup k).isSome = true) (hf : k ∉ acc.fetchedIds)
    (hu : k ∉ acc.upsertedIds) :
    ((pollStep env acc p).db.lookup k).isSome = true ∧
    k ∉ (pollStep env acc p).fetchedIds ∧
    k ∉ (pollStep env acc p).upsertedIds := by
  by_cases hex : item_exists acc.db (.str p) = true
  · rw [pollStep_eq_of_exists env acc p hex]
    exact ⟨hk, hf, hu⟩
  · rw [Bool.not_eq_true] at hex
    have hkp : k ≠ p := by
      intro he
      subst he
      have : item_exists acc.db (.str k) = true := hk
      rw [this] at hex
      exact Bool.noConfusion hex
    have hnf : k ∉ acc.fetchedIds ++ [p] := by
      intro hmem
      rcases List.mem_append.mp hmem with h1 | h1
      · exact hf h1
      · rw [List.mem_singleton] at h1
        exact hkp h1
    cases him : env.itemHtml p with
    | none =>
      rw [pollStep_eq_of_fail_none env acc p hex him]
      exact ⟨hk, hnf, hu⟩
    | some ihtml =>
      by_cases hemp : ihtml = ""
      · subst hemp
        rw [pollStep_eq_of_fail_empty env acc p hex him]
        exact ⟨hk, hnf, hu⟩
      · rw [pollStep_eq_of_new env acc p ihtml hex him hemp]
        refine ⟨lookup_dictSet_isSome acc.db p k _ hk, hnf, ?_⟩
        intro hmem
        rcases List.mem_append.mp hmem with h1 | h1
        · exact hu h1
        · rw [List.mem_singleton] at h1
          exact hkp h1

lemma foldl_pollStep_known (env : PollEnv) :
    ∀ (ids : List String) (acc : PollResult) (k : String),
      (acc.db.lookup k).isSome = true → k ∉ acc.fetchedIds →
      k ∉ acc.upsertedIds →
      k ∉ (ids.foldl (pollStep env) acc).fetchedIds ∧
      k ∉ (ids.foldl (pollStep env) acc).upsertedIds := by
  intro ids
  induction ids with
  | nil => intro acc k _ hf hu; exact ⟨hf, hu⟩
  | cons q rest ih =>
    intro acc k hk hf hu
    rw [List.foldl_cons]
    obtain ⟨h1, h2, h3⟩ := pollStep_known env acc q k hk hf hu
    exact ih _ k h1 h2 h3

lemma pollStep_nodup (env : PollEnv) (acc : PollResult) (p : String)
    (h : (dictKeys acc.db).Nodup) :
    (dictKeys (pollStep env acc p).db).Nodup := by
  by_cases hex : item_exists acc.db (.str p) = true
  · rw [pollStep_eq_of_exists env acc p hex]
    exact h
  · rw [Bool.not_eq_true] at hex
    cases him : env.itemHtml p with
    | none =>
      rw [pollStep_eq_of_fail_none env acc p hex him]
      exact h
    | some ihtml =>
      by_cases hemp : ihtml = ""
      · subst hemp
        rw [pollStep_eq_of_fail_empty env acc p hex him]
        exact h
      · rw [pollStep_eq_of_new env acc p ihtml hex him hemp]
        exact nodup_dictKeys_dictSet acc.db p _ h

lemma foldl_pollStep_nodup (env : PollEnv) :
    ∀ (ids : List String) (acc : PollResult),
      (dictKeys acc.db).Nodup →
      (dictKeys (ids.foldl (pollStep env) acc).db).Nodup := by
  intro ids
  induction ids with
  | nil => intro acc h; exact h
  | cons q rest ih =>
    intro acc h
    rw [List.foldl_cons]
    exact ih _ (pollStep_nodup env acc q h)

/-- C3: against unchanged pages (a fixed environment), a second run of
`_poll_once` is idempotent on the store — it changes nothing (so every
field of every already-known item, `updated_at` included, stays intact and
no duplicate entry appears), it upserts nothing, and it fetches detail
pages only for ids still absent from the store; moreover any single run
never re-fetches or re-upserts an id already present at its start and
preserves the stored record of every known item, and runs preserve key
uniqueness. -/
theorem poll_idempotent_spec (env : PollEnv) (db : Store) :
    ((poll_once env (poll_once env db).db).db = (poll_once env db).db ∧
     (poll_once env (poll_once env db).db).upsertedIds = [] ∧
     (∀ p, p ∈ (poll_once env (poll_once env db).db).fetchedIds →
        item_exists (poll_once env db).db (.str p) = false)) ∧
    (∀ k r, db.lookup k = some r →
       (poll_once env db).db.lookup k = some r ∧
       k ∉ (poll_once env db).fetchedIds ∧
       k ∉ (poll_once env db).upsertedIds) ∧
    ((dictKeys db).Nodup → (dictKeys (poll_once env db).db).Nodup) := by
  unfold poll_once
  cases hl : env.listingHtml with
  | none =>
    refine ⟨⟨rfl, rfl, fun p hp => absurd hp (List.not_mem_nil p)⟩, ?_, fun h => h⟩
    intro k r h
    exact ⟨h, List.not_mem_nil k, List.not_mem_nil k⟩
  | some html =>
    by_cases hemp : html = ""
    · simp only [if_pos hemp]
      refine ⟨⟨by trivial, by trivial, ?_⟩, ?_, fun h => h⟩
      · intro p hp
        simp at hp
      · intro k r h
        refine ⟨h, ?_, ?_⟩ <;> simp
    · simp only [if_neg hemp]
      have hpost : ∀ p ∈ extract_product_ids html,
          (((extract_product_ids html).foldl (pollStep env) ⟨db, [], []⟩).db.lookup p).isSome = true ∨
            fetchFails env p :=
        fun p hp => foldl_pollStep_post env (extract_product_ids html) ⟨db, [], []⟩ p hp
      have hnoop := foldl_pollStep_noop env (extract_product_ids html)
        ⟨((extract_product_ids html).foldl (pollStep env) ⟨db, [], []⟩).db, [], []⟩
        (fun p hp => hpost p hp)
      refine ⟨⟨?_, ?_, ?_⟩, ?_, ?_⟩
      · rw [hnoop]
      · rw [hnoop]
      · intro p hp
        rw [hnoop] at hp
        simp only [List.nil_append] at hp
        have hmem := List.of_mem_filter hp
        show (((extract_product_ids html).foldl (pollStep env) ⟨db, [], []⟩).db.lookup p).isSome = false
        simpa using hmem
      · intro k r h
        refine ⟨foldl_pollStep_lookup_preserved env (extract_product_ids html) ⟨db, [], []⟩ k r h, ?_⟩
        exact foldl_pollStep_known env (extract_product_ids html) ⟨db, [], []⟩ k
          (by rw [h]; rfl) (List.not_mem_nil k) (List.not_mem_nil k)
      · intro h
        exact foldl_pollStep_nodup env (extract_product_ids html) ⟨db, [], []⟩ h

/-- Environment and store for the C3 witness: the listing page holds one
item id (5) which is already known; its detail fetch would fail anyway. -/
def envC3 : PollEnv :=
  { listingHtml := some "<a href=\"/recommerce/forsale/item/5\">x</a>",
    itemHtml := fun _ => none,
    downloadOk := fun _ => false,
    downloadEnabled := true,
    maxImages := 5,
    now := "t1" }

def dbC3 : Store := [("5", plainRec "5")]

/-- Witness for C3: the known item's record survives a run untouched, it
is not re-fetched, and a second run leaves the store equal to the first. -/
theorem poll_idempotent_spec_witness :
    (poll_once envC3 dbC3).db.lookup "5" = some (plainRec "5") ∧
    "5" ∉ (poll_once envC3 dbC3).fetchedIds ∧
    (poll_once envC3 (poll_once envC3 dbC3).db).db = (poll_once envC3 dbC3).db := by
  have h := poll_idempotent_spec envC3 dbC3
  have h5 := h.2.1 "5" (plainRec "5") (by decide)
  exact ⟨h5.1, h5.2.1, h.1.1⟩
